import Mathlib

/-!
Verification development for the stk L1 snapshot binary codec
(`src/cpp/script/binary_encoder_L1_all.py` and its near-duplicate
`binary_encoder_L1_1asset_1month.py`).

The Python encoder is shallowly embedded: machine integers are modelled as
`Nat`/`Int` with explicit reduction modulo 2^width where numpy casts wrap,
records are a Lean structure with one field per schema entry (array fields of
arity five are flattened into five scalar fields, index 0 .. 4), byte images
are `List Nat` (each entry one byte), and IEEE-754 double arithmetic used by
the two price-quantization paths is embedded exactly: a double is an integer
mantissa/exponent pair, and each operation performs exact integer arithmetic
followed by correct rounding to 53 significand bits (round to nearest, ties
to even), which is the deterministic semantics of the CPython / numpy float
operations the source performs.
-/

/- ===================== FieldSchema ===================== -/

/-- Byte width of each primitive struct code, as induced by
`type_to_struct_fmt` together with the packed (unaligned) layout that
`numpy.dtype` gives `STRUCTURED_DTYPE` and that `arr.tobytes()` serializes. -/
def type_to_struct_width (t : String) : Option Nat :=
  if t = "bool" then some 1
  else if t = "uint8" then some 1
  else if t = "int8" then some 1
  else if t = "uint16" then some 2
  else if t = "int16" then some 2
  else if t = "uint32" then some 4
  else if t = "int32" then some 4
  else if t = "uint64" then some 8
  else if t = "int64" then some 8
  else none

/-- Python `rstrip`: remove every trailing occurrence of the character. -/
def drop_trailing (c : Char) (l : List Char) : List Char :=
  (l.reverse.dropWhile (fun x => x == c)).reverse

/-- Python `split` on a single separator character. -/
def split_char (c : Char) : List Char → List (List Char)
  | [] => [[]]
  | x :: rest =>
      match split_char c rest with
      | [] => [[]]
      | h :: t => if x == c then [] :: h :: t else (x :: h) :: t

/-- Python `int` on a digit string. -/
def digits_to_nat (l : List Char) : Option Nat :=
  if decide (l ≠ []) && l.all Char.isDigit then
    some (l.foldl (fun acc c => 10 * acc + (c.toNat - 48)) 0)
  else none

/-- Byte size of one schema field: scalar types directly, and a type tag of
the form base ++ "[" ++ len ++ "]" (handled like the source's
`t.rstrip(']').split('[')`) contributes base width times len. -/
def field_byte_size (t : String) : Nat :=
  match split_char '[' (drop_trailing ']' t.data) with
  | [base] => (type_to_struct_width (String.mk base)).getD 0
  | [base, lenPart] =>
      (type_to_struct_width (String.mk base)).getD 0 *
        ((digits_to_nat lenPart).getD 0)
  | _ => 0

/-- The `binary_format` registry: field name, type tag, `is_diff` flag, in
declaration order (order defines the byte offsets). -/
def binary_format : List (String × String × Bool) :=
  [("sync", "bool", false),
   ("date", "uint8", true),
   ("time_s", "uint16", true),
   ("latest_price_tick", "int16", true),
   ("trade_count", "uint8", false),
   ("turnover", "uint32", false),
   ("volume", "uint16", false),
   ("bid_price_ticks", "int16[5]", true),
   ("bid_volumes", "uint16[5]", false),
   ("ask_price_ticks", "int16[5]", true),
   ("ask_volumes", "uint16[5]", false),
   ("direction", "uint8", false)]

/-- Total record width in bytes: the sum of the packed field sizes. -/
def record_byte_size (fmt : List (String × String × Bool)) : Nat :=
  (fmt.map (fun f => field_byte_size f.2.1)).sum

/-- Byte offset of every field under the packed layout: each field starts
where the previous one ends (no padding anywhere). -/
def field_offsets_from (o : Nat) : List (String × String × Bool) → List (String × Nat)
  | [] => []
  | f :: rest => (f.1, o) :: field_offsets_from (o + field_byte_size f.2.1) rest

/-- Offsets of all fields of a format, starting at byte 0. -/
def field_offsets (fmt : List (String × String × Bool)) : List (String × Nat) :=
  field_offsets_from 0 fmt

/-- Names of the fields participating in differential encoding
(`DIFF_FIELDS` in the source). -/
def diff_fields (fmt : List (String × String × Bool)) : List String :=
  (fmt.filter (fun f => f.2.2)).map (fun f => f.1)

/- ===================== Quantizer (integer parts) ===================== -/

/-- Semantics of `.astype(np.int16)` applied to an integral value: reduce
modulo 2^16 and reinterpret the residue as a signed 16-bit value.  This is
the cast the source applies to every rounded price-tick column. -/
def astype_int16 (v : Int) : Int :=
  if v % 65536 < 32768 then v % 65536 else v % 65536 - 65536

/-- Semantics of `.astype(np.uint8)` on an integral value: reduce mod 2^8. -/
def astype_uint8 (v : Int) : Int := v % 256

/-- Saturation of the trade-count column, `np.clip(values, 0, max_trade_count)`
with `max_trade_count = 255`. -/
def clip_trade_count (n : Int) : Int := min (max n 0) 255

/-- Stored trade-count byte: the clip followed by the `astype(np.uint8)` cast
performed in `encode_month_snapshots`. -/
def stored_trade_count (n : Int) : Int := astype_uint8 (clip_trade_count n)

/-- Saturation of the turnover column, `np.clip(values, 0, max_turnover)` with
`max_turnover = 2^32 - 1`; the column holds float64 currency amounts. -/
def clip_turnover (q : Rat) : Rat := min (max q 0) 4294967295

/-- Floor of a rational as an integer, written on the raw numerator and
denominator so that it evaluates inside the kernel. -/
def rat_floor (q : Rat) : Int := q.num / (q.den : Int)

/-- Stored turnover word: the clip followed by `astype(np.uint32)`, which for
the clipped (hence in-range, non-negative) float value truncates the
fractional part toward zero and reduces mod 2^32. -/
def stored_turnover (q : Rat) : Int := (rat_floor (clip_turnover q)) % 4294967296

/-- Stored time-of-day: `hour * 3600 + minute * 60 + second` followed by the
`astype(np.uint16)` cast from `parse_snapshot_df`. -/
def time_s_field (h m s : Nat) : Nat := (h * 3600 + m * 60 + s) % 65536

/-- Second-of-day before any cast, for stating when the cast is lossless. -/
def second_of_day (h m s : Nat) : Nat := h * 3600 + m * 60 + s

/- ===================== Symbol-token grammar ===================== -/

/-- Embedding of `extract_symbol_from_filename`: CPython
`re.match(r'([a-z]{2}\d{6})_\d{8}\.csv', filename, re.IGNORECASE)` anchors at
the START of the name only (no end anchor), so any extra characters after the
literal ".csv" are ignored by the regex; `IGNORECASE` makes both the letter
class and the literal "csv" case-insensitive.  On a match the captured
exchange+code token is lower-cased. -/
def extract_symbol_from_filename : List Char → Option (List Char)
  | a :: b :: c1 :: c2 :: c3 :: c4 :: c5 :: c6 :: u ::
    d1 :: d2 :: d3 :: d4 :: d5 :: d6 :: d7 :: d8 :: dot :: x :: y :: z :: _ =>
      if a.isAlpha && b.isAlpha &&
         c1.isDigit && c2.isDigit && c3.isDigit && c4.isDigit &&
         c5.isDigit && c6.isDigit && u == '_' &&
         d1.isDigit && d2.isDigit && d3.isDigit && d4.isDigit &&
         d5.isDigit && d6.isDigit && d7.isDigit && d8.isDigit &&
         dot == '.' && x.toLower == 'c' && y.toLower == 's' && z.toLower == 'v'
      then some [a.toLower, b.toLower, c1, c2, c3, c4, c5, c6]
      else none
  | _ => none

/-- Python `filename.endswith('.csv')`, the case-sensitive pre-filter applied
by `group_files_by_symbol` before the regex runs. -/
def ends_with_csv (cs : List Char) : Bool :=
  ['.', 'c', 's', 'v'].isSuffixOf cs

/-- A file name is accepted as codec input (contributes records to a symbol)
exactly when `group_files_by_symbol` keeps it: it ends with ".csv" and the
symbol regex matches a prefix of it. -/
def accepted_csv_filename (cs : List Char) : Bool :=
  ends_with_csv cs && (extract_symbol_from_filename cs).isSome

/-- Modelled from the spec: the spec's symbol-token grammar
`^[A-Za-z]{2}\d{6}_\d{8}\.csv$` matched case-insensitively against the WHOLE
name (both ends anchored), for comparison with the code's behavior. -/
def spec_symbol_grammar : List Char → Bool
  | [a, b, c1, c2, c3, c4, c5, c6, u, d1, d2, d3, d4, d5, d6, d7, d8,
     dot, x, y, z] =>
      a.isAlpha && b.isAlpha &&
      c1.isDigit && c2.isDigit && c3.isDigit && c4.isDigit &&
      c5.isDigit && c6.isDigit && u == '_' &&
      d1.isDigit && d2.isDigit && d3.isDigit && d4.isDigit &&
      d5.isDigit && d6.isDigit && d7.isDigit && d8.isDigit &&
      dot == '.' && x.toLower == 'c' && y.toLower == 's' && z.toLower == 'v'
  | _ => false

/- ===================== Per-unit error policy ===================== -/

/-- Python exception values relevant to the per-symbol work unit: a
`ValueError` carrying its message, or any other exception. -/
inductive PyErr where
  | valueError (msg : List Char)
  | otherExc (msg : List Char)
deriving DecidableEq

/-- Python substring containment (the `in` operator on strings): the pattern
occurs contiguously somewhere in the text. -/
def has_substring (pat : List Char) : List Char → Bool
  | [] => pat.isEmpty
  | c :: t => pat.isPrefixOf (c :: t) || has_substring pat t

/-- Condition the `binary_encoder_L1_all` variant tests before skipping: the
caught exception is a `ValueError` whose string contains "time data" (the
pandas datetime-parse failure message shape). -/
def is_datetime_parse_failure : PyErr → Bool
  | PyErr.valueError m => has_substring ("time data".toList) m
  | PyErr.otherExc _ => false

/-- Outcome of the encode-and-write step for one (symbol, month) unit,
abstracting `encode_month_snapshots` plus the file write: either the
compressed bytes or a raised exception. -/
def EncodeOutcome : Type := Except PyErr (List Nat)

/-- Embedding of `process_symbol_files` from `binary_encoder_L1_all.py`: the
encode step is wrapped in try/except; a `ValueError` containing "time data"
is reported as skipped ("<symbol> (SKIPPED)"), every other exception is
re-raised. -/
def process_symbol_files_all (symbol : List Char) (enc : Except PyErr (List Nat)) :
    Except PyErr (List Char) :=
  match enc with
  | Except.ok _ => Except.ok symbol
  | Except.error e =>
      if is_datetime_parse_failure e
      then Except.ok (symbol ++ " (SKIPPED)".toList)
      else Except.error e

/-- Embedding of `process_symbol_files` from
`binary_encoder_L1_1asset_1month.py`: no try/except around the encode step,
so every exception (datetime-parse failures included) propagates. -/
def process_symbol_files_one (symbol : List Char) (enc : Except PyErr (List Nat)) :
    Except PyErr (List Char) :=
  match enc with
  | Except.ok _ => Except.ok symbol
  | Except.error e => Except.error e

/- ===================== Record and byte layout ===================== -/

/-- One logical snapshot record, one Lean field per schema entry of
`binary_format` (the two arity-5 arrays are flattened into five scalar
fields each, index 0 to 4).  Unsigned fields hold their value directly;
`int16` fields hold the unsigned 16-bit residue of the stored two's
complement pattern, so every field is a residue below 2^width. -/
structure Record where
  sync : Bool
  date : Nat
  time_s : Nat
  latest_price_tick : Nat
  trade_count : Nat
  turnover : Nat
  volume : Nat
  bp0 : Nat
  bp1 : Nat
  bp2 : Nat
  bp3 : Nat
  bp4 : Nat
  bv0 : Nat
  bv1 : Nat
  bv2 : Nat
  bv3 : Nat
  bv4 : Nat
  ap0 : Nat
  ap1 : Nat
  ap2 : Nat
  ap3 : Nat
  ap4 : Nat
  av0 : Nat
  av1 : Nat
  av2 : Nat
  av3 : Nat
  av4 : Nat
  direction : Nat
deriving DecidableEq

/-- Well-formedness: every numeric field fits its declared width, as the
structured numpy array guarantees for the in-memory record. -/
def Record.wf (r : Record) : Prop :=
  r.date < 256 ∧ r.time_s < 65536 ∧ r.latest_price_tick < 65536 ∧
  r.trade_count < 256 ∧ r.turnover < 4294967296 ∧ r.volume < 65536 ∧
  r.bp0 < 65536 ∧ r.bp1 < 65536 ∧ r.bp2 < 65536 ∧ r.bp3 < 65536 ∧ r.bp4 < 65536 ∧
  r.bv0 < 65536 ∧ r.bv1 < 65536 ∧ r.bv2 < 65536 ∧ r.bv3 < 65536 ∧ r.bv4 < 65536 ∧
  r.ap0 < 65536 ∧ r.ap1 < 65536 ∧ r.ap2 < 65536 ∧ r.ap3 < 65536 ∧ r.ap4 < 65536 ∧
  r.av0 < 65536 ∧ r.av1 < 65536 ∧ r.av2 < 65536 ∧ r.av3 < 65536 ∧ r.av4 < 65536 ∧
  r.direction < 256

instance (r : Record) : Decidable r.wf := by
  unfold Record.wf
  infer_instance

/-- Batch well-formedness: every record fits the schema widths. -/
def batch_wf (l : List Record) : Prop := ∀ r ∈ l, r.wf

instance (l : List Record) : Decidable (batch_wf l) := by
  unfold batch_wf
  exact List.decidableBAll _ l

/-- Little-endian image of a 16-bit value (x86 memory order of the numpy
scalar), two bytes. -/
def le16 (v : Nat) : List Nat := [v % 256, v / 256 % 256]

/-- Little-endian image of a 32-bit value, four bytes. -/
def le32 (v : Nat) : List Nat :=
  [v % 256, v / 256 % 256, v / 65536 % 256, v / 16777216 % 256]

/-- Byte image of one record exactly as `arr.tobytes()` lays it out: fields
in `binary_format` declaration order, packed little-endian, 54 bytes. -/
def serialize_record (r : Record) : List Nat :=
  (if r.sync then 1 else 0) :: r.date % 256 ::
  le16 r.time_s ++ le16 r.latest_price_tick ++
  r.trade_count % 256 :: le32 r.turnover ++ le16 r.volume ++
  le16 r.bp0 ++ le16 r.bp1 ++ le16 r.bp2 ++ le16 r.bp3 ++ le16 r.bp4 ++
  le16 r.bv0 ++ le16 r.bv1 ++ le16 r.bv2 ++ le16 r.bv3 ++ le16 r.bv4 ++
  le16 r.ap0 ++ le16 r.ap1 ++ le16 r.ap2 ++ le16 r.ap3 ++ le16 r.ap4 ++
  le16 r.av0 ++ le16 r.av1 ++ le16 r.av2 ++ le16 r.av3 ++ le16 r.av4 ++
  [r.direction % 256]

/-- Modelled from the spec: `RecordCodec.decode_record` (absent from the
source, which only encodes) reads one 54-byte slice back into a record and
returns the remaining bytes; anything shorter than 54 bytes is rejected. -/
def parse_record : List Nat → Option (Record × List Nat)
  | sB :: dB :: t0 :: t1 :: l0 :: l1 :: tc ::
    u0 :: u1 :: u2 :: u3 :: v0 :: v1 ::
    e0 :: e1 :: e2 :: e3 :: e4 :: e5 :: e6 :: e7 :: e8 :: e9 ::
    f0 :: f1 :: f2 :: f3 :: f4 :: f5 :: f6 :: f7 :: f8 :: f9 ::
    g0 :: g1 :: g2 :: g3 :: g4 :: g5 :: g6 :: g7 :: g8 :: g9 ::
    k0 :: k1 :: k2 :: k3 :: k4 :: k5 :: k6 :: k7 :: k8 :: k9 ::
    dr :: rest =>
      some (⟨sB != 0, dB, t0 + 256 * t1, l0 + 256 * l1, tc,
             u0 + 256 * u1 + 65536 * u2 + 16777216 * u3, v0 + 256 * v1,
             e0 + 256 * e1, e2 + 256 * e3, e4 + 256 * e5, e6 + 256 * e7,
             e8 + 256 * e9,
             f0 + 256 * f1, f2 + 256 * f3, f4 + 256 * f5, f6 + 256 * f7,
             f8 + 256 * f9,
             g0 + 256 * g1, g2 + 256 * g3, g4 + 256 * g5, g6 + 256 * g7,
             g8 + 256 * g9,
             k0 + 256 * k1, k2 + 256 * k3, k4 + 256 * k5, k6 + 256 * k7,
             k8 + 256 * k9,
             dr⟩, rest)
  | _ => none

/- ===================== DifferentialTransform ===================== -/

/-- Wrapping subtraction of 8-bit residues, the semantics of `np.subtract`
on a `uint8` column. -/
def sub8 (a b : Nat) : Nat := (a + (256 - b % 256)) % 256

/-- Wrapping addition of 8-bit residues (the decode-side cumulative sum). -/
def add8 (a b : Nat) : Nat := (a + b) % 256

/-- Wrapping subtraction of 16-bit residues, the semantics of `np.subtract`
on `uint16`/`int16` columns (two's complement wrap). -/
def sub16 (a b : Nat) : Nat := (a + (65536 - b % 65536)) % 65536

/-- Wrapping addition of 16-bit residues. -/
def add16 (a b : Nat) : Nat := (a + b) % 65536

/-- One step of the in-place differential pass: the current record with each
`is_diff` field (date, time_s, latest_price_tick, both price-tick arrays)
replaced by its wrapping difference from the previous record's raw value;
every other field is untouched. -/
def diff_sub_record (cur prev : Record) : Record :=
  { cur with
    date := sub8 cur.date prev.date,
    time_s := sub16 cur.time_s prev.time_s,
    latest_price_tick := sub16 cur.latest_price_tick prev.latest_price_tick,
    bp0 := sub16 cur.bp0 prev.bp0, bp1 := sub16 cur.bp1 prev.bp1,
    bp2 := sub16 cur.bp2 prev.bp2, bp3 := sub16 cur.bp3 prev.bp3,
    bp4 := sub16 cur.bp4 prev.bp4,
    ap0 := sub16 cur.ap0 prev.ap0, ap1 := sub16 cur.ap1 prev.ap1,
    ap2 := sub16 cur.ap2 prev.ap2, ap3 := sub16 cur.ap3 prev.ap3,
    ap4 := sub16 cur.ap4 prev.ap4 }

/-- Modelled from the spec: one step of `DifferentialTransform.reverse`
(the decoder's cumulative sum), adding the previously reconstructed raw
record back onto each differential field. -/
def diff_add_record (cur prev : Record) : Record :=
  { cur with
    date := add8 cur.date prev.date,
    time_s := add16 cur.time_s prev.time_s,
    latest_price_tick := add16 cur.latest_price_tick prev.latest_price_tick,
    bp0 := add16 cur.bp0 prev.bp0, bp1 := add16 cur.bp1 prev.bp1,
    bp2 := add16 cur.bp2 prev.bp2, bp3 := add16 cur.bp3 prev.bp3,
    bp4 := add16 cur.bp4 prev.bp4,
    ap0 := add16 cur.ap0 prev.ap0, ap1 := add16 cur.ap1 prev.ap1,
    ap2 := add16 cur.ap2 prev.ap2, ap3 := add16 cur.ap3 prev.ap3,
    ap4 := add16 cur.ap4 prev.ap4 }

/-- Differential pass over the tail of a batch: `prev` carries the previous
record's RAW (pre-transform) value, exactly like the vectorized
`np.subtract(arr[field][1:], arr[field][:-1], out=...)` which reads the
untransformed left neighbour. -/
def diff_apply_from (prev : Record) : List Record → List Record
  | [] => []
  | c :: rest => diff_sub_record c prev :: diff_apply_from c rest

/-- Differential pass over a whole batch: record 0 keeps absolute values. -/
def diff_apply : List Record → List Record
  | [] => []
  | r :: rest => r :: diff_apply_from r rest

/-- Modelled from the spec: decode-side cumulative reconstruction of the
tail, threading the just-reconstructed raw record as the new seed. -/
def diff_reverse_from (prev : Record) : List Record → List Record
  | [] => []
  | d :: rest =>
      diff_add_record d prev :: diff_reverse_from (diff_add_record d prev) rest

/-- Modelled from the spec: `DifferentialTransform.reverse`, seeded by
record 0's absolute values. -/
def diff_reverse : List Record → List Record
  | [] => []
  | r :: rest => r :: diff_reverse_from r rest

/-- Sync-flag pass of `encode_month_snapshots`: all flags cleared, then the
first record's flag set. -/
def set_sync : List Record → List Record
  | [] => []
  | r :: rest =>
      { r with sync := true } :: rest.map (fun c => { c with sync := false })

/-- Modelled from the spec: the spec's description of the differential
apply pass, stated non-incrementally — record 0 keeps its raw absolute
values with `sync` forced true, and record `i` (`i` at least 1) is the
element-wise wrapping difference `raw[i] - raw[i-1]` of the two RAW records,
with `sync` false. -/
def spec_diff_apply : List Record → List Record
  | [] => []
  | r :: rest =>
      { r with sync := true } ::
        List.zipWith
          (fun cur prev => { diff_sub_record cur prev with sync := false })
          rest (r :: rest)

/- ===================== BatchAssembler / Compressor / Decoder ===================== -/

/-- Concatenated byte image of a record list, back to back with no header,
no separator and no trailer (`arr.tobytes()` on the structured array). -/
def bytes_concat : List Record → List Nat
  | [] => []
  | r :: rest => serialize_record r ++ bytes_concat rest

/-- Uncompressed byte image produced by `encode_month_snapshots`: the
differential transform applied to the sync-flagged batch, serialized;
the empty batch yields the empty byte string (the early-return branch). -/
def encode_month_bytes (l : List Record) : List Nat :=
  if l.length = 0 then [] else bytes_concat (diff_apply (set_sync l))

/-- Full in-place transform of `encode_month_snapshots` before serialization:
sync flags, then the differential pass. -/
def encode_transform (l : List Record) : List Record :=
  diff_apply (set_sync l)

/-- Modelled from the spec: `zlib.compress(..., level=6)` is an external
lossless byte-stream codec; only its losslessness (decompression restores
the exact input bytes) matters to the codec contract, so the pair is
embedded as the identity on byte lists. -/
def zlib_compress (b : List Nat) : List Nat := b

/-- Modelled from the spec: inverse of `zlib_compress` under the lossless
deflate contract. -/
def zlib_decompress (b : List Nat) : List Nat := b

/-- Compressed artifact bytes for one month of records, as returned by
`encode_month_snapshots`. -/
def encode_month_snapshots (l : List Record) : List Nat :=
  zlib_compress (encode_month_bytes l)

/-- Artifact file name written by `process_symbol_files`:
`f"{symbol}_{record_count}.bin"`. -/
def artifact_name (symbol : List Char) (record_count : Nat) : List Char :=
  symbol ++ '_' :: (Nat.repr record_count).toList ++ ".bin".toList

/-- Modelled from the spec: the decoder slices the inflated payload into
`record_count` back-to-back 54-byte records; any length remainder is a hard
decode failure. -/
def parse_records : Nat → List Nat → Option (List Record)
  | 0, [] => some []
  | 0, _ :: _ => none
  | k + 1, bytes =>
      match parse_record bytes with
      | some (r, rest) => (parse_records k rest).map (fun t => r :: t)
      | none => none

/-- Modelled from the spec: the symmetric decoder (absent from the source).
Given the record count recovered from the artifact name, inflate, check the
payload is exactly `record_count * 54` bytes, slice into fixed records and
run the reverse differential pass. -/
def decode_artifact (record_count : Nat) (artifact : List Nat) : Option (List Record) :=
  let bytes := zlib_decompress artifact
  if bytes.length = record_count * 54 then
    (parse_records record_count bytes).map diff_reverse
  else
    none

/- ===================== IEEE-754 double embedding (Quantizer float path) ===================== -/

/-- Round the ratio `a / b` (both positive) to the nearest integer, ties to
even: the rounding rule of CPython's builtin `round` and of `np.round`. -/
def rhe_nat (a b : Nat) : Nat :=
  let f := a / b
  let r := a % b
  if 2 * r < b then f
  else if b < 2 * r then f + 1
  else if f % 2 = 0 then f else f + 1

/-- Scale the positive ratio `a / b` into the binade [2^52, 2^53) by powers
of two, returning the scaled pair and the binary exponent; the fuel bounds
the loop and is never exhausted for the magnitudes the encoder meets. -/
def fl_scale (fuel : Nat) (a b : Nat) (e : Int) : Nat × Nat × Int :=
  match fuel with
  | 0 => (a, b, e)
  | fuel + 1 =>
      if a < 4503599627370496 * b then fl_scale fuel (2 * a) b (e - 1)
      else if 9007199254740992 * b ≤ a then fl_scale fuel a (2 * b) (e + 1)
      else (a, b, e)

/-- A (positive or zero) IEEE-754 binary64 value, represented exactly as
mantissa times 2^exponent.  Every double the quantizer meets is positive, so
no sign is modelled. -/
structure Dbl where
  m : Nat
  e : Int
deriving DecidableEq

/-- Correct rounding of the exact ratio `a / b` to the nearest binary64
(round to nearest, ties to even; overflow and subnormals ignored — they are
out of range for every price the encoder handles). -/
def dbl_of_ratio (a b : Nat) : Dbl :=
  if a = 0 then ⟨0, 0⟩
  else
    let s := fl_scale 4200 a b 0
    ⟨rhe_nat s.1 s.2.1, s.2.2⟩

/-- Exact binary64 value of a decimal literal `num / 10^k` written in the
Python source, e.g. `dbl_of_decimal 12345 1000` is the double `12.345` and
`dbl_of_decimal 1 100` is the double `0.01` (the default `tick`). -/
def dbl_of_decimal (num den : Nat) : Dbl := dbl_of_ratio num den

/-- IEEE division of doubles: exact mantissa ratio, correctly re-rounded,
exponents subtracted. -/
def dbl_div (p t : Dbl) : Dbl :=
  let d := dbl_of_ratio p.m t.m
  ⟨d.m, d.e + p.e - t.e⟩

/-- IEEE multiplication of doubles: exact mantissa product, correctly
re-rounded, exponents added. -/
def dbl_mul (p t : Dbl) : Dbl :=
  let d := dbl_of_ratio (p.m * t.m) 1
  ⟨d.m, d.e + p.e + t.e⟩

/-- Rounding a double to the nearest integer, ties to even, on the EXACT
value of the double (what CPython `round` and `np.round` both do). -/
def dbl_round_half_even (p : Dbl) : Int :=
  if 0 ≤ p.e then ((p.m * 2 ^ p.e.toNat : Nat) : Int)
  else ((rhe_nat p.m (2 ^ (-p.e).toNat) : Nat) : Int)

/-- Exact rational value of an embedded double, for relating the integer
computation to the real-number reading of the spec. -/
def Dbl.toRat (p : Dbl) : Rat :=
  if 0 ≤ p.e then ((p.m * 2 ^ p.e.toNat : Nat) : Rat)
  else mkRat (p.m : Int) (2 ^ (-p.e).toNat)

/-- Embedding of the scalar `price_to_tick(price, tick=0.01)` from the
source: `int(round(price / tick))` in double arithmetic — the IEEE division
`price / 0.01`, then CPython `round` (nearest, ties to even). -/
def price_to_tick (price : Dbl) : Int :=
  dbl_round_half_even (dbl_div price (dbl_of_decimal 1 100))

/-- Embedding of the batch path of `parse_snapshot_df`:
`np.round(values * 100.0)` — IEEE multiplication by the exact double 100.0,
then `np.round` (nearest, ties to even) — before the int16 cast. -/
def batch_price_round (price : Dbl) : Int :=
  dbl_round_half_even (dbl_mul price (dbl_of_ratio 100 1))

/-- Stored batch-path tick: `np.round(values * 100.0).astype(np.int16)`,
the rounded value pushed through the wrapping int16 cast. -/
def batch_price_to_tick (price : Dbl) : Int :=
  astype_int16 (batch_price_round price)

/-- Concrete well-formed snapshot record (a sync head record), used as a
test vector for the witnesses. -/
def sample_record_a : Record :=
  ⟨true, 3, 34200, 1234, 5, 100000, 42, 1201, 1202, 1203, 1204, 1205,
   7, 8, 9, 10, 11, 1301, 1302, 1303, 1304, 1305, 21, 22, 23, 24, 25, 0⟩

/-- Concrete well-formed follow-up record for the witnesses. -/
def sample_record_b : Record :=
  ⟨false, 3, 34201, 1233, 2, 50000, 7, 1200, 1201, 1202, 1203, 1204,
   6, 7, 8, 9, 10, 1300, 1301, 1302, 1303, 1304, 20, 21, 22, 23, 24, 1⟩

/- ===================== Theorems ===================== -/

/-- Helper: one serialized record is exactly 54 bytes. -/
theorem serialize_record_length (r : Record) : (serialize_record r).length = 54 := by
  simp [serialize_record, le16, le32]

/-- Fixed record width: the schema-driven byte layout totals 54 bytes, each
field starts exactly where the previous one ends (offsets below), and the
serializer emits exactly `record_byte_size` bytes per record — no padding
anywhere (claim C3). -/
theorem record_layout_C3 :
    record_byte_size binary_format = 54 ∧
    field_offsets binary_format =
      [("sync", 0), ("date", 1), ("time_s", 2), ("latest_price_tick", 4),
       ("trade_count", 6), ("turnover", 7), ("volume", 11),
       ("bid_price_ticks", 13), ("bid_volumes", 23), ("ask_price_ticks", 33),
       ("ask_volumes", 43), ("direction", 53)] ∧
    (∀ r : Record, (serialize_record r).length = record_byte_size binary_format) := by
  refine ⟨by decide, by decide, fun r => ?_⟩
  rw [serialize_record_length r]
  decide

/-- Counterexample for claim C5: in IEEE double arithmetic the quotient
`12.345 / 0.01` is EXACTLY 1234.5 and both CPython `round` and `np.round`
round ties to even, so `price_to_tick(12.345)` is 1234, not the 1235 the
claim states; moreover the scalar path (`price / 0.01`) and the batch path
(`price * 100.0`) disagree at the price 109.695 (10969 versus 10970), so the
batch path does not quantize the same way as the scalar one. -/
theorem price_to_tick_counterexample_C5 :
    price_to_tick (dbl_of_decimal 12345 1000) = 1234 ∧ (1234 : Int) ≠ 1235 ∧
    price_to_tick (dbl_of_decimal 109695 1000) = 10969 ∧
    batch_price_round (dbl_of_decimal 109695 1000) = 10970 := by
  refine ⟨by decide, by decide, by decide, by decide⟩

/-- Price quantization (claim C5, amended): both quantization paths compute
round-to-nearest-ties-to-even of a double product/quotient at 0.01
resolution; `price_to_tick(12.34) = 1234` but `price_to_tick(12.345) = 1234`
(banker's rounding of the exact double quotient 1234.5), the batch path
agrees on those two inputs, and the two paths are NOT the same function of
the price: at 109.695 the scalar path gives 10969 while the batch path
gives 10970. -/
theorem price_quantization_C5 :
    price_to_tick (dbl_of_decimal 1234 100) = 1234 ∧
    price_to_tick (dbl_of_decimal 12345 1000) = 1234 ∧
    batch_price_to_tick (dbl_of_decimal 1234 100) = 1234 ∧
    batch_price_to_tick (dbl_of_decimal 12345 1000) = 1234 ∧
    price_to_tick (dbl_of_decimal 109695 1000) = 10969 ∧
    batch_price_to_tick (dbl_of_decimal 109695 1000) = 10970 := by
  refine ⟨by decide, by decide, by decide, by decide, by decide, by decide⟩

/-- Silent int16 wrap of out-of-range price ticks (claim C6): for every
rounded tick value outside [-32768, 32767] the stored value is the unique
representative of the value mod 2^16 inside the signed 16-bit range (no
clamping, no error); concretely tick 40000 is stored as -25536 and tick
-40000 as 25536 — not the saturation values. -/
theorem price_tick_overflow_C6 :
    (∀ v : Int, (v < -32768 ∨ 32767 < v) →
      astype_int16 v % 65536 = v % 65536 ∧
      -32768 ≤ astype_int16 v ∧ astype_int16 v ≤ 32767) ∧
    astype_int16 40000 = -25536 ∧ astype_int16 (-40000) = 25536 ∧
    (-25536 : Int) ≠ 32767 := by
  refine ⟨fun v _ => ?_, by decide, by decide, by decide⟩
  unfold astype_int16
  split <;> omega

/-- Witness for C6 at the concrete out-of-range tick 40000. -/
theorem price_tick_overflow_C6_witness :
    astype_int16 40000 % 65536 = 40000 % 65536 ∧
    -32768 ≤ astype_int16 40000 ∧ astype_int16 40000 ≤ 32767 :=
  price_tick_overflow_C6.1 40000 (Or.inr (by decide))

/-- Helper: on an exact integer input the stored turnover is precisely the
clipped value (the uint32 cast truncates nothing). -/
theorem stored_turnover_intCast (z : Int) :
    stored_turnover (z : Rat) = min (max z 0) 4294967295 := by
  have hfloor : ∀ w : Int, rat_floor (w : Rat) = w := by
    intro w
    simp [rat_floor]
  have hclip : clip_turnover (z : Rat) = ((min (max z 0) 4294967295 : Int) : Rat) := by
    unfold clip_turnover
    push_cast
    rfl
  unfold stored_turnover
  rw [hclip, hfloor]
  omega

/-- Counterexample for claim C7: the stored turnover does NOT equal
`min(max(n, 0), 2^32 - 1)` for every input — at the fractional input 0.5 the
stored word is 0 (the uint32 cast truncates), not 0.5. -/
theorem turnover_fraction_counterexample_C7 :
    stored_turnover (mkRat 1 2) = 0 ∧
    ((stored_turnover (mkRat 1 2) : Rat) ≠ min (max (mkRat 1 2) 0) 4294967295) := by
  refine ⟨by decide, by decide⟩

/-- Saturation of trade count and turnover (claim C7, amended): the stored
trade count equals `min(max(n, 0), 255)` for every integer n, the stored
turnover is always inside [0, 2^32 - 1] and equals `min(max(n, 0), 2^32 - 1)`
for every INTEGER input n (fractional currency amounts are truncated toward
zero by the uint32 cast); in particular the stored trade count at 300 is 255
and the stored turnover at 2^32 is 2^32 - 1. -/
theorem clip_saturation_C7 :
    (∀ n : Int, stored_trade_count n = min (max n 0) 255) ∧
    (∀ q : Rat, 0 ≤ stored_turnover q ∧ stored_turnover q ≤ 4294967295) ∧
    (∀ z : Int, stored_turnover (z : Rat) = min (max z 0) 4294967295) ∧
    stored_trade_count 300 = 255 ∧
    stored_turnover ((4294967296 : Int) : Rat) = 4294967295 := by
  refine ⟨fun n => ?_, fun q => ?_, stored_turnover_intCast, by decide, ?_⟩
  · unfold stored_trade_count astype_uint8 clip_trade_count
    omega
  · unfold stored_turnover
    omega
  · rw [stored_turnover_intCast 4294967296]
    decide

/-- Implicit time-of-day wrap (claim C10): the stored `time_s` equals the
true second-of-day exactly when that value fits in 16 bits, which for real
clock readings (h < 24, m < 60, s < 60) happens exactly for timestamps at or
before 18:12:15; one second later the stored value silently wraps to 0. -/
theorem time_of_day_wrap_C10 :
    (∀ h m s : Nat, h < 24 → m < 60 → s < 60 →
      ((time_s_field h m s = second_of_day h m s ↔ second_of_day h m s ≤ 65535) ∧
       (second_of_day h m s ≤ 65535 ↔
         (h < 18 ∨ (h = 18 ∧ (m < 12 ∨ (m = 12 ∧ s ≤ 15))))))) ∧
    time_s_field 18 12 15 = 65535 ∧ time_s_field 18 12 16 = 0 := by
  refine ⟨fun h m s hh hm hs => ?_, by decide, by decide⟩
  unfold time_s_field second_of_day
  constructor
  · constructor
    · intro he
      omega
    · intro hle
      omega
  · omega

/-- Witness for C10 at the boundary timestamp 18:12:15 and at 18:12:16. -/
theorem time_of_day_wrap_C10_witness :
    (time_s_field 18 12 15 = second_of_day 18 12 15 ↔ second_of_day 18 12 15 ≤ 65535) ∧
    (second_of_day 18 12 15 ≤ 65535 ↔
      (18 < 18 ∨ (18 = 18 ∧ (12 < 12 ∨ (12 = 12 ∧ 15 ≤ 15))))) :=
  time_of_day_wrap_C10.1 18 12 15 (by decide) (by decide) (by decide)

/-- Counterexample for claim C8: acceptance is NOT equivalent to a full
(end-anchored, case-insensitive) match of `^[A-Za-z]{2}\d{6}_\d{8}\.csv$` —
the code's regex has no end anchor and the `.csv` suffix check is
case-sensitive, so "sh600000_20250603.csv.csv" is accepted though the
anchored grammar rejects it, while "SH600000_20250603.CSV" matches the
anchored grammar case-insensitively but is rejected by the code. -/
theorem symbol_grammar_counterexample_C8 :
    accepted_csv_filename ("sh600000_20250603.csv.csv".toList) = true ∧
    spec_symbol_grammar ("sh600000_20250603.csv.csv".toList) = false ∧
    spec_symbol_grammar ("SH600000_20250603.CSV".toList) = true ∧
    accepted_csv_filename ("SH600000_20250603.CSV".toList) = false := by
  refine ⟨by decide, by decide, by decide, by decide⟩

/-- Symbol-token grammar (claim C8, amended): a per-day file name is
accepted exactly when it ends with the lower-case ".csv" AND the pattern
`[A-Za-z]{2}\d{6}_\d{8}\.csv` (case-insensitive) matches a PREFIX of the
name; every accepted name's symbol key is the lower-cased two-letter
exchange + six-digit code.  Every exact-match name of the grammar is
accepted with that key, names with trailing junk that still end in ".csv"
are ALSO accepted, both spellings of the spec's example resolve to
"sh600000", and the five-digit example is rejected. -/
theorem symbol_grammar_C8 (a b c1 c2 c3 c4 c5 c6 d1 d2 d3 d4 d5 d6 d7 d8 : Char)
    (ha : a.isAlpha = true) (hb : b.isAlpha = true)
    (h1 : c1.isDigit = true) (h2 : c2.isDigit = true) (h3 : c3.isDigit = true)
    (h4 : c4.isDigit = true) (h5 : c5.isDigit = true) (h6 : c6.isDigit = true)
    (g1 : d1.isDigit = true) (g2 : d2.isDigit = true) (g3 : d3.isDigit = true)
    (g4 : d4.isDigit = true) (g5 : d5.isDigit = true) (g6 : d6.isDigit = true)
    (g7 : d7.isDigit = true) (g8 : d8.isDigit = true) :
    accepted_csv_filename
      (a :: b :: c1 :: c2 :: c3 :: c4 :: c5 :: c6 :: '_' ::
       d1 :: d2 :: d3 :: d4 :: d5 :: d6 :: d7 :: d8 ::
       '.' :: 'c' :: 's' :: 'v' :: []) = true ∧
    extract_symbol_from_filename
      (a :: b :: c1 :: c2 :: c3 :: c4 :: c5 :: c6 :: '_' ::
       d1 :: d2 :: d3 :: d4 :: d5 :: d6 :: d7 :: d8 ::
       '.' :: 'c' :: 's' :: 'v' :: []) =
      some [a.toLower, b.toLower, c1, c2, c3, c4, c5, c6] ∧
    accepted_csv_filename
      (a :: b :: c1 :: c2 :: c3 :: c4 :: c5 :: c6 :: '_' ::
       d1 :: d2 :: d3 :: d4 :: d5 :: d6 :: d7 :: d8 ::
       '.' :: 'c' :: 's' :: 'v' :: '.' :: 'c' :: 's' :: 'v' :: []) = true ∧
    accepted_csv_filename ("SH600000_20250603.csv".toList) = true ∧
    extract_symbol_from_filename ("SH600000_20250603.csv".toList) =
      some ("sh600000".toList) ∧
    accepted_csv_filename ("sh600000_20250603.csv".toList) = true ∧
    extract_symbol_from_filename ("sh600000_20250603.csv".toList) =
      some ("sh600000".toList) ∧
    accepted_csv_filename ("sh60000_20250603.csv".toList) = false := by
  refine ⟨?_, ?_, ?_, by decide, by decide, by decide, by decide, by decide⟩
  · simp [accepted_csv_filename, ends_with_csv, extract_symbol_from_filename,
      List.isSuffixOf, List.isPrefixOf, ha, hb, h1, h2, h3, h4, h5, h6,
      g1, g2, g3, g4, g5, g6, g7, g8]
  · simp [extract_symbol_from_filename, ha, hb, h1, h2, h3, h4, h5, h6,
      g1, g2, g3, g4, g5, g6, g7, g8]
  · simp [accepted_csv_filename, ends_with_csv, extract_symbol_from_filename,
      List.isSuffixOf, List.isPrefixOf, ha, hb, h1, h2, h3, h4, h5, h6,
      g1, g2, g3, g4, g5, g6, g7, g8]

/-- Witness for C8 at the concrete digits of "sh600000_20250603.csv". -/
theorem symbol_grammar_C8_witness :
    accepted_csv_filename
      ('s' :: 'h' :: '6' :: '0' :: '0' :: '0' :: '0' :: '0' :: '_' ::
       '2' :: '0' :: '2' :: '5' :: '0' :: '6' :: '0' :: '3' ::
       '.' :: 'c' :: 's' :: 'v' :: []) = true ∧
    extract_symbol_from_filename
      ('s' :: 'h' :: '6' :: '0' :: '0' :: '0' :: '0' :: '0' :: '_' ::
       '2' :: '0' :: '2' :: '5' :: '0' :: '6' :: '0' :: '3' ::
       '.' :: 'c' :: 's' :: 'v' :: []) =
      some ['s'.toLower, 'h'.toLower, '6', '0', '0', '0', '0', '0'] :=
  ⟨(symbol_grammar_C8 's' 'h' '6' '0' '0' '0' '0' '0' '2' '0' '2' '5' '0' '6' '0' '3'
      rfl rfl rfl rfl rfl rfl rfl rfl rfl rfl rfl rfl rfl rfl rfl rfl).1,
   (symbol_grammar_C8 's' 'h' '6' '0' '0' '0' '0' '0' '2' '0' '2' '5' '0' '6' '0' '3'
      rfl rfl rfl rfl rfl rfl rfl rfl rfl rfl rfl rfl rfl rfl rfl rfl).2.1⟩

/-- Counterexample for claim C9: at the same concrete datetime-parse
failure the `binary_encoder_L1_all` variant skips and reports while the
`binary_encoder_L1_1asset_1month` variant propagates the error — so the
skip-and-report policy does NOT hold in both encoder variants. -/
theorem skip_policy_counterexample_C9 :
    is_datetime_parse_failure
      (PyErr.valueError ("time data mismatch".toList)) = true ∧
    process_symbol_files_all ("sh600000".toList)
      (Except.error (PyErr.valueError ("time data mismatch".toList))) =
      Except.ok ("sh600000 (SKIPPED)".toList) ∧
    process_symbol_files_one ("sh600000".toList)
      (Except.error (PyErr.valueError ("time data mismatch".toList))) =
      Except.error (PyErr.valueError ("time data mismatch".toList)) := by
  refine ⟨rfl, rfl, rfl⟩

/-- Skip-and-report policy (claim C9, amended): in the
`binary_encoder_L1_all` variant a datetime-parse failure (a ValueError whose
message contains "time data") is caught and reported as "<symbol> (SKIPPED)"
while every other error propagates; in the
`binary_encoder_L1_1asset_1month` variant EVERY error, datetime-parse
failures included, propagates — the policy holds only in the first
variant. -/
theorem skip_policy_C9 :
    (∀ (sym : List Char) (e : PyErr), is_datetime_parse_failure e = true →
      process_symbol_files_all sym (Except.error e) =
        Except.ok (sym ++ " (SKIPPED)".toList)) ∧
    (∀ (sym : List Char) (e : PyErr), is_datetime_parse_failure e = false →
      process_symbol_files_all sym (Except.error e) = Except.error e) ∧
    (∀ (sym : List Char) (e : PyErr),
      process_symbol_files_one sym (Except.error e) = Except.error e) ∧
    (∀ (sym : List Char) (b : List Nat),
      process_symbol_files_all sym (Except.ok b) = Except.ok sym ∧
      process_symbol_files_one sym (Except.ok b) = Except.ok sym) := by
  refine ⟨fun sym e he => ?_, fun sym e he => ?_, fun sym e => rfl,
    fun sym b => ⟨rfl, rfl⟩⟩
  · simp [process_symbol_files_all, he]
  · simp [process_symbol_files_all, he]

/-- Witness for C9 at a concrete datetime-parse failure and a concrete
unrelated error. -/
theorem skip_policy_C9_witness :
    process_symbol_files_all ("sh600000".toList)
      (Except.error (PyErr.valueError ("time data mismatch".toList))) =
      Except.ok ("sh600000".toList ++ " (SKIPPED)".toList) ∧
    process_symbol_files_all ("sh600000".toList)
      (Except.error (PyErr.otherExc ("disk full".toList))) =
      Except.error (PyErr.otherExc ("disk full".toList)) :=
  ⟨skip_policy_C9.1 ("sh600000".toList)
      (PyErr.valueError ("time data mismatch".toList)) rfl,
   skip_policy_C9.2.1 ("sh600000".toList)
      (PyErr.otherExc ("disk full".toList)) rfl⟩

/-- Helper: parsing inverts serialization on any well-formed record,
returning the remaining bytes untouched. -/
theorem parse_record_serialize (r : Record) (rest : List Nat) (h : r.wf) :
    parse_record (serialize_record r ++ rest) = some (r, rest) := by
  obtain ⟨sy, da, ts, lp, tc, tu, vo, b0, b1, b2, b3, b4, w0, w1, w2, w3, w4,
    a0, a1, a2, a3, a4, x0, x1, x2, x3, x4, dr⟩ := r
  obtain ⟨k1, k2, k3, k4, k5, k6, k7, k8, k9, k10, k11, k12, k13, k14, k15,
    k16, k17, k18, k19, k20, k21, k22, k23, k24, k25, k26, k27⟩ := h
  dsimp only at *
  cases sy <;>
    simp only [serialize_record, le16, le32, List.cons_append, List.nil_append,
      parse_record, Option.some.injEq, Prod.mk.injEq, Record.mk.injEq] <;>
    and_intros <;>
    first
      | rfl
      | decide
      | omega

/-- Helper: the concatenated byte image is 54 bytes per record. -/
theorem bytes_concat_length (l : List Record) :
    (bytes_concat l).length = 54 * l.length := by
  induction l with
  | nil => rfl
  | cons r t ih =>
      simp [bytes_concat, serialize_record_length, ih]
      omega

/-- Helper: slicing the concatenated image of a well-formed batch recovers
exactly that batch. -/
theorem parse_records_concat (l : List Record) (h : batch_wf l) :
    parse_records l.length (bytes_concat l) = some l := by
  induction l with
  | nil => rfl
  | cons r t ih =>
      have hr : r.wf := h r (List.mem_cons_self r t)
      have ht : batch_wf t := fun x hx => h x (List.mem_cons_of_mem r hx)
      simp [bytes_concat, parse_records, parse_record_serialize r _ hr, ih ht]

/-- Helper: changing only the sync flag preserves well-formedness. -/
theorem wf_modify_sync (r : Record) (b : Bool) (h : r.wf) :
    (Record.mk b r.date r.time_s r.latest_price_tick r.trade_count r.turnover
      r.volume r.bp0 r.bp1 r.bp2 r.bp3 r.bp4 r.bv0 r.bv1 r.bv2 r.bv3 r.bv4
      r.ap0 r.ap1 r.ap2 r.ap3 r.ap4 r.av0 r.av1 r.av2 r.av3 r.av4
      r.direction).wf := h

/-- Helper: the sync pass preserves batch well-formedness. -/
theorem batch_wf_set_sync (l : List Record) (h : batch_wf l) :
    batch_wf (set_sync l) := by
  cases l with
  | nil => exact h
  | cons r t =>
      intro x hx
      simp only [set_sync, List.mem_cons, List.mem_map] at hx
      rcases hx with hx | ⟨y, hy, hxy⟩
      · subst hx
        exact wf_modify_sync r true (h r (List.mem_cons_self r t))
      · subst hxy
        exact wf_modify_sync y false (h y (List.mem_cons_of_mem r hy))

/-- Helper: one differential step preserves well-formedness of the current
record (the wrapped differences are residues below their modulus). -/
theorem diff_sub_record_wf (c p : Record) (hc : c.wf) :
    (diff_sub_record c p).wf := by
  obtain ⟨sy, da, ts, lp, tc, tu, vo, b0, b1, b2, b3, b4, w0, w1, w2, w3, w4,
    a0, a1, a2, a3, a4, x0, x1, x2, x3, x4, dr⟩ := c
  obtain ⟨k1, k2, k3, k4, k5, k6, k7, k8, k9, k10, k11, k12, k13, k14, k15,
    k16, k17, k18, k19, k20, k21, k22, k23, k24, k25, k26, k27⟩ := hc
  dsimp only at *
  unfold diff_sub_record sub8 sub16 Record.wf
  dsimp only
  and_intros <;> first | trivial | omega

/-- Helper: the differential pass over a tail preserves well-formedness. -/
theorem batch_wf_diff_apply_from (p : Record) (l : List Record)
    (h : batch_wf l) : batch_wf (diff_apply_from p l) := by
  induction l generalizing p with
  | nil => exact h
  | cons c t ih =>
      intro x hx
      simp only [diff_apply_from, List.mem_cons] at hx
      rcases hx with rfl | hx
      · exact diff_sub_record_wf c p (h c (List.mem_cons_self c t))
      · exact ih c (fun y hy => h y (List.mem_cons_of_mem c hy)) x hx

/-- Helper: the differential pass preserves batch well-formedness. -/
theorem batch_wf_diff_apply (l : List Record) (h : batch_wf l) :
    batch_wf (diff_apply l) := by
  cases l with
  | nil => exact h
  | cons r t =>
      intro x hx
      simp only [diff_apply, List.mem_cons] at hx
      rcases hx with rfl | hx
      · exact h _ (List.mem_cons_self _ _)
      · exact batch_wf_diff_apply_from _ t
          (fun y hy => h y (List.mem_cons_of_mem _ hy)) x hx

/-- Helper: adding the previous raw record back inverts one differential
step, for any previous record (only the current record must fit its
widths). -/
theorem diff_add_sub (c p : Record) (hc : c.wf) :
    diff_add_record (diff_sub_record c p) p = c := by
  obtain ⟨sy, da, ts, lp, tc, tu, vo, b0, b1, b2, b3, b4, w0, w1, w2, w3, w4,
    a0, a1, a2, a3, a4, x0, x1, x2, x3, x4, dr⟩ := c
  obtain ⟨k1, k2, k3, k4, k5, k6, k7, k8, k9, k10, k11, k12, k13, k14, k15,
    k16, k17, k18, k19, k20, k21, k22, k23, k24, k25, k26, k27⟩ := hc
  dsimp only at *
  unfold diff_add_record diff_sub_record add8 sub8 add16 sub16
  simp only [Record.mk.injEq]
  and_intros <;> first | trivial | omega

/-- Helper: subtracting the previous raw record inverts one cumulative-sum
step of the decoder. -/
theorem diff_sub_add (d p : Record) (hd : d.wf) :
    diff_sub_record (diff_add_record d p) p = d := by
  obtain ⟨sy, da, ts, lp, tc, tu, vo, b0, b1, b2, b3, b4, w0, w1, w2, w3, w4,
    a0, a1, a2, a3, a4, x0, x1, x2, x3, x4, dr⟩ := d
  obtain ⟨k1, k2, k3, k4, k5, k6, k7, k8, k9, k10, k11, k12, k13, k14, k15,
    k16, k17, k18, k19, k20, k21, k22, k23, k24, k25, k26, k27⟩ := hd
  dsimp only at *
  unfold diff_add_record diff_sub_record add8 sub8 add16 sub16
  simp only [Record.mk.injEq]
  and_intros <;> first | trivial | omega

/-- Helper: the decoder's cumulative pass inverts the encoder's differential
pass on any well-formed tail, for every seed. -/
theorem diff_reverse_from_apply_from (p : Record) (l : List Record)
    (h : batch_wf l) : diff_reverse_from p (diff_apply_from p l) = l := by
  induction l generalizing p with
  | nil => rfl
  | cons c t ih =>
      have hc : c.wf := h c (List.mem_cons_self c t)
      have ht : batch_wf t := fun y hy => h y (List.mem_cons_of_mem c hy)
      simp only [diff_apply_from, diff_reverse_from, diff_add_sub c p hc]
      exact congrArg (List.cons c) (ih c ht)

/-- Helper: the encoder's differential pass inverts the decoder's cumulative
pass on any well-formed tail of stored differences, for every seed. -/
theorem diff_apply_from_reverse_from (p : Record) (l : List Record)
    (h : batch_wf l) : diff_apply_from p (diff_reverse_from p l) = l := by
  induction l generalizing p with
  | nil => rfl
  | cons d t ih =>
      have hd : d.wf := h d (List.mem_cons_self d t)
      have ht : batch_wf t := fun y hy => h y (List.mem_cons_of_mem d hy)
      simp only [diff_reverse_from, diff_apply_from, diff_sub_add d p hd]
      exact congrArg (List.cons d) (ih (diff_add_record d p) ht)

/-- Helper: reverse after apply is the identity on well-formed batches. -/
theorem diff_reverse_apply (l : List Record) (h : batch_wf l) :
    diff_reverse (diff_apply l) = l := by
  cases l with
  | nil => rfl
  | cons r t =>
      simp only [diff_apply, diff_reverse]
      exact congrArg (List.cons r)
        (diff_reverse_from_apply_from r t
          (fun y hy => h y (List.mem_cons_of_mem r hy)))

/-- Helper: apply after reverse is the identity on well-formed streams. -/
theorem diff_apply_reverse (l : List Record) (h : batch_wf l) :
    diff_apply (diff_reverse l) = l := by
  cases l with
  | nil => rfl
  | cons r t =>
      simp only [diff_reverse, diff_apply]
      exact congrArg (List.cons r)
        (diff_apply_from_reverse_from r t
          (fun y hy => h y (List.mem_cons_of_mem r hy)))

/-- Helper: the differential pass preserves list length. -/
theorem diff_apply_from_length (p : Record) (l : List Record) :
    (diff_apply_from p l).length = l.length := by
  induction l generalizing p with
  | nil => rfl
  | cons c t ih => simp [diff_apply_from, ih]

/-- Helper: length preservation for the whole differential pass. -/
theorem diff_apply_length (l : List Record) :
    (diff_apply l).length = l.length := by
  cases l with
  | nil => rfl
  | cons r t => simp [diff_apply, diff_apply_from_length]

/-- Helper: length preservation for the sync pass. -/
theorem set_sync_length (l : List Record) :
    (set_sync l).length = l.length := by
  cases l with
  | nil => rfl
  | cons r t => simp [set_sync]

/-- Round trip (claim C1): decoding the full encode pipeline —
deflate-decompress, length-check against the record count, slice into
54-byte records, reverse differential pass — reproduces the original batch
exactly, for every well-formed batch whose sync flags are in the canonical
pattern the assembler itself establishes (first record true, rest false);
moreover the reverse pass is a two-sided inverse of the in-place
differential apply pass on every well-formed batch. -/
theorem round_trip_C1 (l : List Record) (hwf : batch_wf l)
    (hsync : set_sync l = l) :
    decode_artifact l.length (encode_month_snapshots l) = some l ∧
    diff_reverse (diff_apply l) = l ∧
    diff_apply (diff_reverse l) = l := by
  refine ⟨?_, diff_reverse_apply l hwf, diff_apply_reverse l hwf⟩
  cases l with
  | nil => rfl
  | cons r t =>
      have hbytes : encode_month_bytes (r :: t) =
          bytes_concat (diff_apply (r :: t)) := by
        unfold encode_month_bytes
        rw [if_neg (by simp), hsync]
      have hlen : (bytes_concat (diff_apply (r :: t))).length =
          (r :: t).length * 54 := by
        rw [bytes_concat_length, diff_apply_length]
        omega
      have hparse : parse_records (r :: t).length
          (bytes_concat (diff_apply (r :: t))) = some (diff_apply (r :: t)) := by
        have hpc := parse_records_concat (diff_apply (r :: t))
          (batch_wf_diff_apply (r :: t) hwf)
        rwa [diff_apply_length] at hpc
      unfold decode_artifact encode_month_snapshots zlib_compress zlib_decompress
      rw [hbytes, if_pos hlen, hparse]
      simp [diff_reverse_apply (r :: t) hwf]

/-- Witness for C1: the concrete two-record batch round-trips through the
full pipeline, and the differential passes invert each other on it. -/
theorem round_trip_C1_witness :
    decode_artifact ([sample_record_a, sample_record_b].length)
      (encode_month_snapshots [sample_record_a, sample_record_b]) =
      some [sample_record_a, sample_record_b] ∧
    diff_reverse (diff_apply [sample_record_a, sample_record_b]) =
      [sample_record_a, sample_record_b] ∧
    diff_apply (diff_reverse [sample_record_a, sample_record_b]) =
      [sample_record_a, sample_record_b] :=
  round_trip_C1 [sample_record_a, sample_record_b] (by decide) (by decide)

/-- Helper: the incremental differential pass equals the element-wise zip of
the tail with its raw left neighbours. -/
theorem diff_apply_from_eq_zip (p : Record) (l : List Record) :
    diff_apply_from p l = List.zipWith diff_sub_record l (p :: l) := by
  induction l generalizing p with
  | nil => rfl
  | cons c t ih =>
      simp only [diff_apply_from, List.zipWith]
      exact congrArg (List.cons (diff_sub_record c p)) (ih c)

/-- Helper: the differential step reads none of the previous record's sync
flag and passes the current record's sync flag through, so the pass on the
sync-cleared tail is the sync-cleared pass on the raw tail. -/
theorem zip_diff_map_clear_sync (t : List Record) (q : Record) (b : Bool) :
    List.zipWith diff_sub_record
      (t.map (fun c => { c with sync := false }))
      ({ q with sync := b } :: t.map (fun c => { c with sync := false })) =
    List.zipWith
      (fun cur prev => { diff_sub_record cur prev with sync := false })
      t (q :: t) := by
  induction t generalizing q b with
  | nil => rfl
  | cons c t ih =>
      simp only [List.map_cons, List.zipWith]
      exact congrArg (List.cons _) (ih c false)

/-- Helper: the full encode transform is exactly the spec's non-incremental
description of the differential pass. -/
theorem encode_transform_eq_spec (l : List Record) :
    encode_transform l = spec_diff_apply l := by
  cases l with
  | nil => rfl
  | cons r t =>
      unfold encode_transform set_sync spec_diff_apply
      simp only [diff_apply]
      rw [diff_apply_from_eq_zip]
      exact congrArg (List.cons _) (zip_diff_map_clear_sync t r true)

/-- Differential apply correctness (claim C2): the in-place differential
pass equals the spec's element-wise description — record 0 keeps its raw
absolute values with sync forced true, record i (i at least 1) is the
wrapping difference of the raw records i and i-1 with sync false — and one
differential step leaves every non-differential field untouched while each
differential field becomes the difference of the raw values modulo its
width (date mod 2^8; time_s, latest price tick and all bid/ask price ticks
mod 2^16). -/
theorem diff_apply_correct_C2 :
    (∀ l : List Record, encode_transform l = spec_diff_apply l) ∧
    (∀ cur prev : Record,
      ((diff_sub_record cur prev).date : Int) % 256 =
        ((cur.date : Int) - (prev.date : Int)) % 256 ∧
      ((diff_sub_record cur prev).time_s : Int) % 65536 =
        ((cur.time_s : Int) - (prev.time_s : Int)) % 65536 ∧
      ((diff_sub_record cur prev).latest_price_tick : Int) % 65536 =
        ((cur.latest_price_tick : Int) - (prev.latest_price_tick : Int)) % 65536 ∧
      ((diff_sub_record cur prev).bp0 : Int) % 65536 =
        ((cur.bp0 : Int) - (prev.bp0 : Int)) % 65536 ∧
      ((diff_sub_record cur prev).bp1 : Int) % 65536 =
        ((cur.bp1 : Int) - (prev.bp1 : Int)) % 65536 ∧
      ((diff_sub_record cur prev).bp2 : Int) % 65536 =
        ((cur.bp2 : Int) - (prev.bp2 : Int)) % 65536 ∧
      ((diff_sub_record cur prev).bp3 : Int) % 65536 =
        ((cur.bp3 : Int) - (prev.bp3 : Int)) % 65536 ∧
      ((diff_sub_record cur prev).bp4 : Int) % 65536 =
        ((cur.bp4 : Int) - (prev.bp4 : Int)) % 65536 ∧
      ((diff_sub_record cur prev).ap0 : Int) % 65536 =
        ((cur.ap0 : Int) - (prev.ap0 : Int)) % 65536 ∧
      ((diff_sub_record cur prev).ap1 : Int) % 65536 =
        ((cur.ap1 : Int) - (prev.ap1 : Int)) % 65536 ∧
      ((diff_sub_record cur prev).ap2 : Int) % 65536 =
        ((cur.ap2 : Int) - (prev.ap2 : Int)) % 65536 ∧
      ((diff_sub_record cur prev).ap3 : Int) % 65536 =
        ((cur.ap3 : Int) - (prev.ap3 : Int)) % 65536 ∧
      ((diff_sub_record cur prev).ap4 : Int) % 65536 =
        ((cur.ap4 : Int) - (prev.ap4 : Int)) % 65536 ∧
      (diff_sub_record cur prev).sync = cur.sync ∧
      (diff_sub_record cur prev).trade_count = cur.trade_count ∧
      (diff_sub_record cur prev).turnover = cur.turnover ∧
      (diff_sub_record cur prev).volume = cur.volume ∧
      (diff_sub_record cur prev).bv0 = cur.bv0 ∧
      (diff_sub_record cur prev).bv1 = cur.bv1 ∧
      (diff_sub_record cur prev).bv2 = cur.bv2 ∧
      (diff_sub_record cur prev).bv3 = cur.bv3 ∧
      (diff_sub_record cur prev).bv4 = cur.bv4 ∧
      (diff_sub_record cur prev).av0 = cur.av0 ∧
      (diff_sub_record cur prev).av1 = cur.av1 ∧
      (diff_sub_record cur prev).av2 = cur.av2 ∧
      (diff_sub_record cur prev).av3 = cur.av3 ∧
      (diff_sub_record cur prev).av4 = cur.av4 ∧
      (diff_sub_record cur prev).direction = cur.direction) := by
  refine ⟨encode_transform_eq_spec, fun cur prev => ?_⟩
  unfold diff_sub_record sub8 sub16
  dsimp only
  and_intros <;> first | rfl | omega

/-- Artifact naming and length contract (claim C4): for a non-empty batch
of k records the artifact is named `<symbol>_<k>.bin` (the decimal count
spliced into the name), its deflate-decompressed payload is exactly k * 54
bytes, and that payload is nothing but the k transformed records laid back
to back — no internal header or length field, so the count lives only in
the name. -/
theorem artifact_contract_C4 (sym : List Char) (l : List Record)
    (h : l ≠ []) :
    artifact_name sym l.length =
      sym ++ '_' :: (Nat.repr l.length).toList ++ ".bin".toList ∧
    (zlib_decompress (encode_month_snapshots l)).length = l.length * 54 ∧
    zlib_decompress (encode_month_snapshots l) =
      bytes_concat (encode_transform l) := by
  have hbytes : encode_month_bytes l = bytes_concat (encode_transform l) := by
    unfold encode_month_bytes encode_transform
    rw [if_neg (by simpa using h)]
  refine ⟨rfl, ?_, ?_⟩
  · unfold zlib_decompress encode_month_snapshots zlib_compress
    rw [hbytes]
    unfold encode_transform
    rw [bytes_concat_length, diff_apply_length, set_sync_length]
    omega
  · exact hbytes

/-- Witness for C4: the two-record sample batch yields the artifact name
"sh600000_2.bin" and a 108-byte payload of exactly the two records. -/
theorem artifact_contract_C4_witness :
    artifact_name ("sh600000".toList) ([sample_record_a, sample_record_b].length) =
      "sh600000".toList ++ '_' ::
        (Nat.repr [sample_record_a, sample_record_b].length).toList ++
        ".bin".toList ∧
    (zlib_decompress (encode_month_snapshots [sample_record_a, sample_record_b])).length =
      [sample_record_a, sample_record_b].length * 54 ∧
    zlib_decompress (encode_month_snapshots [sample_record_a, sample_record_b]) =
      bytes_concat (encode_transform [sample_record_a, sample_record_b]) :=
  artifact_contract_C4 ("sh600000".toList) [sample_record_a, sample_record_b]
    (by simp)
